import Mathlib

/-!
Verification of the Duosida EV charger protocol implementation
(`src/duosida_ev/charger.py`) against its natural-language specification.

The Python source is shallowly embedded below:
* bytes are modelled as `List ℕ` (each entry a byte value 0–255; the bitwise
  operations mirror the Python expressions verbatim, so the definitions are
  total on all of `ℕ`);
* Python `dict` field maps are modelled as association lists with
  replace-or-append insertion (`dictSet`) and first-match lookup (`dictGet`),
  which coincides with `dict` semantics because `dictSet` keeps keys unique;
* Python `float` values are modelled as exact rationals (`ℚ`); the IEEE-754
  payload decoders `f32FromBits`/`f64FromBits` are exact for finite values
  (non-finite encodings, which this protocol never carries, are mapped to 0 —
  no verified claim depends on the numeric value of a float field);
* the `while` loops of `decode_varint` / `decode_message` are embedded with an
  explicit fuel argument so that every definition evaluates by kernel
  reduction; fuel `data.length` is always sufficient because every loop
  iteration strictly advances the offset (proved below), so the wrappers
  `decodeVarint` / `decodeMessage` compute exactly what the Python loops do.
-/

namespace Duosida

/-- Decoded wire value, mirroring the Python value stored in the field dict:
`vint` for wire type 0 (Python `int`), `f64` for wire type 1 (Python `float`
from `struct.unpack('<d', …)`), `str` for a length-delimited payload that
decodes as UTF-8 (Python `str`, kept as its byte sequence), `bytes` for a
length-delimited payload that does not, `f32` for wire type 5. -/
inductive WireValue where
  | vint (v : ℕ)
  | f64 (q : ℚ)
  | str (b : List ℕ)
  | bytes (b : List ℕ)
  | f32 (q : ℚ)
deriving DecidableEq, Repr

/-- A decoded protobuf message: Python `Dict[int, Any]` keyed by field number. -/
abbrev Dict := List (ℕ × WireValue)

/-- Python `fields[k] = v`: replace the value when the key is present,
otherwise append the new binding (`dict` insertion). -/
def dictSet (fields : Dict) (k : ℕ) (v : WireValue) : Dict :=
  match fields with
  | [] => [(k, v)]
  | (k', v') :: t => if k' = k then (k, v) :: t else (k', v') :: dictSet t k v

/-- Python `fields.get(k)`: the value bound to `k`, if any. -/
def dictGet (fields : Dict) (k : ℕ) : Option WireValue :=
  match fields with
  | [] => none
  | (k', v) :: t => if k' = k then some v else dictGet t k

/-- UTF-8 bytes of an ASCII string literal (every string constant in the
source is plain ASCII, so the encoding is the character codes). -/
def asciiBytes (s : String) : List ℕ :=
  s.data.map Char.toNat

/-- `ProtobufEncoder.encode_varint` (charger.py lines 28–35): emit 7 bits per
byte, low to high, continuation bit 0x80 on every byte except the last. -/
def encodeVarint (value : ℕ) : List ℕ :=
  if 0x7F < value then
    ((value &&& 0x7F) ||| 0x80) :: encodeVarint (value >>> 7)
  else
    [value &&& 0x7F]
termination_by value
decreasing_by
  simp only [Nat.shiftRight_eq_div_pow]
  exact Nat.div_lt_self (by omega) (by norm_num)

/-- `ProtobufEncoder.encode_string` (lines 37–43). -/
def encodeString (fieldNum : ℕ) (value : List ℕ) : List ℕ :=
  encodeVarint ((fieldNum <<< 3) ||| 2) ++ encodeVarint value.length ++ value

/-- `ProtobufEncoder.encode_varint_field` (lines 51–55). -/
def encodeVarintField (fieldNum value : ℕ) : List ℕ :=
  encodeVarint ((fieldNum <<< 3) ||| 0) ++ encodeVarint value

/-- `ProtobufEncoder.encode_embedded_message` (lines 57–62). -/
def encodeEmbeddedMessage (fieldNum : ℕ) (data : List ℕ) : List ℕ :=
  encodeVarint ((fieldNum <<< 3) ||| 2) ++ encodeVarint data.length ++ data

/-- Little-endian byte list read as an unsigned integer. -/
def leNat (bs : List ℕ) : ℕ :=
  bs.foldr (fun b acc => b + 256 * acc) 0

/-- Exact rational value of an IEEE-754 binary32 bit pattern
(`struct.unpack('<f', …)`): sign, 8-bit exponent, 23-bit fraction.
Exponent 255 (infinities/NaN, never produced by this protocol's senders)
is mapped to 0; no claim verified here depends on that case. -/
def f32FromBits (bits : ℕ) : ℚ :=
  let s : ℕ := bits / 2 ^ 31 % 2
  let e : ℕ := bits / 2 ^ 23 % 2 ^ 8
  let m : ℕ := bits % 2 ^ 23
  let mag : ℚ :=
    if e = 0 then (m : ℚ) / 2 ^ 149
    else if e = 255 then 0
    else ((2 ^ 23 + m : ℕ) : ℚ) * 2 ^ e / 2 ^ 150
  if s = 1 then -mag else mag

/-- Exact rational value of an IEEE-754 binary64 bit pattern
(`struct.unpack('<d', …)`); exponent 2047 handled as in `f32FromBits`. -/
def f64FromBits (bits : ℕ) : ℚ :=
  let s : ℕ := bits / 2 ^ 63 % 2
  let e : ℕ := bits / 2 ^ 52 % 2 ^ 11
  let m : ℕ := bits % 2 ^ 52
  let mag : ℚ :=
    if e = 0 then (m : ℚ) / 2 ^ 1074
    else if e = 2047 then 0
    else ((2 ^ 52 + m : ℕ) : ℚ) * 2 ^ e / 2 ^ 1075
  if s = 1 then -mag else mag

/-- Value of a 4-byte little-endian float payload. -/
def f32FromBytes (bs : List ℕ) : ℚ := f32FromBits (leNat bs)

/-- Value of an 8-byte little-endian double payload. -/
def f64FromBytes (bs : List ℕ) : ℚ := f64FromBits (leNat bs)

/-- UTF-8 continuation byte (0x80–0xBF). -/
def isCont (c : ℕ) : Bool := 0x80 ≤ c && c ≤ 0xBF

/-- Strict UTF-8 validity (what Python's `bytes.decode('utf-8')` accepts:
RFC 3629 — no overlong forms, no surrogates, no code points above U+10FFFF). -/
def isValidUtf8 (l : List ℕ) : Bool :=
  match l with
  | [] => true
  | b :: t =>
    if b < 0x80 then isValidUtf8 t
    else if 0xC2 ≤ b && b ≤ 0xDF then
      match t with
      | c1 :: t1 => isCont c1 && isValidUtf8 t1
      | [] => false
    else if b = 0xE0 then
      match t with
      | c1 :: c2 :: t2 => (0xA0 ≤ c1 && c1 ≤ 0xBF) && isCont c2 && isValidUtf8 t2
      | _ => false
    else if 0xE1 ≤ b && b ≤ 0xEC then
      match t with
      | c1 :: c2 :: t2 => isCont c1 && isCont c2 && isValidUtf8 t2
      | _ => false
    else if b = 0xED then
      match t with
      | c1 :: c2 :: t2 => (0x80 ≤ c1 && c1 ≤ 0x9F) && isCont c2 && isValidUtf8 t2
      | _ => false
    else if 0xEE ≤ b && b ≤ 0xEF then
      match t with
      | c1 :: c2 :: t2 => isCont c1 && isCont c2 && isValidUtf8 t2
      | _ => false
    else if b = 0xF0 then
      match t with
      | c1 :: c2 :: c3 :: t3 => (0x90 ≤ c1 && c1 ≤ 0xBF) && isCont c2 && isCont c3 && isValidUtf8 t3
      | _ => false
    else if 0xF1 ≤ b && b ≤ 0xF3 then
      match t with
      | c1 :: c2 :: c3 :: t3 => isCont c1 && isCont c2 && isCont c3 && isValidUtf8 t3
      | _ => false
    else if b = 0xF4 then
      match t with
      | c1 :: c2 :: c3 :: t3 => (0x80 ≤ c1 && c1 ≤ 0x8F) && isCont c2 && isCont c3 && isValidUtf8 t3
      | _ => false
    else false

/-- Loop body of `ProtobufDecoder.decode_varint` (lines 69–80), with explicit
fuel; `decodeVarint` supplies fuel `data.length - offset`, which is enough for
the loop to run to completion (each iteration consumes one byte). State:
current `offset`, accumulated `result`, current `shift`. -/
def decodeVarintGo (data : List ℕ) (fuel offset result shift : ℕ) : ℕ × ℕ :=
  match fuel with
  | 0 => (result, offset)
  | fuel + 1 =>
    if h : offset < data.length then
      let byte := data.get ⟨offset, h⟩
      let result' := result ||| ((byte &&& 0x7F) <<< shift)
      if byte &&& 0x80 = 0 then (result', offset + 1)
      else decodeVarintGo data fuel (offset + 1) result' (shift + 7)
    else (result, offset)

/-- `ProtobufDecoder.decode_varint` (lines 69–80): returns
`(value, next_offset)`. -/
def decodeVarint (data : List ℕ) (offset : ℕ) : ℕ × ℕ :=
  decodeVarintGo data (data.length - offset) offset 0 0

/-- One iteration of the `decode_message` loop (lines 92–121): read the key
varint, split it into field number and wire type, dispatch on the wire type.
Returns the updated field dict and the next offset. Wire types other than
0, 1, 2, 5 fall through every branch of the Python `if`/`elif` chain: nothing
is stored and the offset is left right after the key varint. -/
def decodeStep (data : List ℕ) (offset : ℕ) (fields : Dict) : Dict × ℕ :=
  let kp := decodeVarint data offset
  let key := kp.1
  let o1 := kp.2
  let fieldNumber := key >>> 3
  let wireType := key &&& 0x07
  if wireType = 0 then
    let vp := decodeVarint data o1
    (dictSet fields fieldNumber (.vint vp.1), vp.2)
  else if wireType = 1 then
    if o1 + 8 ≤ data.length then
      (dictSet fields fieldNumber (.f64 (f64FromBytes ((data.drop o1).take 8))), o1 + 8)
    else (fields, o1)
  else if wireType = 2 then
    let lp := decodeVarint data o1
    let len := lp.1
    let o2 := lp.2
    if o2 + len ≤ data.length then
      let value := (data.drop o2).take len
      let wv := if isValidUtf8 value then WireValue.str value else WireValue.bytes value
      (dictSet fields fieldNumber wv, o2 + len)
    else (fields, o2)
  else if wireType = 5 then
    if o1 + 4 ≤ data.length then
      (dictSet fields fieldNumber (.f32 (f32FromBytes ((data.drop o1).take 4))), o1 + 4)
    else (fields, o1)
  else (fields, o1)

/-- The `while offset < len(data)` loop of `decode_message` (lines 88–121),
with explicit fuel; `decodeMessage` supplies fuel `data.length`, which is
enough because every iteration strictly advances the offset (proved below). -/
def decodeMessageGo (data : List ℕ) (fuel offset : ℕ) (fields : Dict) : Dict :=
  match fuel with
  | 0 => fields
  | fuel + 1 =>
    if offset < data.length then
      let s := decodeStep data offset fields
      decodeMessageGo data fuel s.2 s.1
    else fields

/-- `ProtobufDecoder.decode_message` (lines 83–123). -/
def decodeMessage (data : List ℕ) : Dict :=
  decodeMessageGo data data.length 0 []

/-- Structural-recursion view of the `decode_varint` loop, used to reason
about it by induction on the byte list: consumes continuation-terminated
bytes from the front of `l`, returning the accumulated value and the number
of bytes consumed. -/
def decodeVarintList (l : List ℕ) (result shift : ℕ) : ℕ × ℕ :=
  match l with
  | [] => (result, 0)
  | b :: t =>
    let result' := result ||| ((b &&& 0x7F) <<< shift)
    if b &&& 0x80 = 0 then (result', 1)
    else
      let p := decodeVarintList t result' (shift + 7)
      (p.1, p.2 + 1)

/-- `ChargerStatus` (charger.py lines 126–156): numeric fields as exact
rationals, identity strings as byte lists. Defaults as in the dataclass. -/
structure ChargerStatus where
  conn_status : ℤ := 0
  voltage : ℚ := 0
  voltage2 : ℚ := 0
  voltage3 : ℚ := 0
  current : ℚ := 0
  current2 : ℚ := 0
  current3 : ℚ := 0
  power : ℚ := 0
  temperature_station : ℚ := 0
  temperature_internal : ℚ := 0
  session_energy : ℚ := 0
  timestamp : ℤ := 0
  cp_voltage_raw : ℚ := 0
  device_id : List ℕ := []
  model : List ℕ := []
  manufacturer : List ℕ := []
  firmware : List ℕ := []
deriving DecidableEq, Repr

/-- Python `int(q)` on a float: truncation toward zero. -/
def pyTrunc (q : ℚ) : ℤ :=
  q.num.tdiv (q.den : ℤ)

/-- The local `get_float` helper of `_get_status_once` (lines 475–477):
numeric values pass through (ints via `float(val)`), anything else gives the
default 0.0. -/
def getFloat (fields : Dict) (k : ℕ) : ℚ :=
  match dictGet fields k with
  | some (.vint v) => (v : ℚ)
  | some (.f64 q) => q
  | some (.f32 q) => q
  | _ => 0

/-- The local `get_int` helper of `_get_status_once` (lines 479–481). -/
def getInt (fields : Dict) (k : ℕ) : ℤ :=
  match dictGet fields k with
  | some (.vint v) => (v : ℤ)
  | some (.f64 q) => pyTrunc q
  | some (.f32 q) => pyTrunc q
  | _ => 0

/-- Status-payload selection of `_get_status_once` (lines 447–469): when outer
field 16 is a raw-bytes inner container, decode it and dispatch on its
sub-field 2 tag; `"DataContinueReq"` means "no status in this frame" (`none`,
the early `return None` of line 458). Otherwise the chosen payload dict. -/
def statusPayload (outerFields : Dict) : Option Dict :=
  match dictGet outerFields 16 with
  | some (.bytes innerData) =>
    let innerFields := decodeMessage innerData
    let msgType := (dictGet innerFields 2).getD (.str [])
    if msgType = .str (asciiBytes "DataVendorStatusReq") then
      match dictGet innerFields 10 with
      | some (.bytes statusData) => some (decodeMessage statusData)
      | _ => some []
    else if msgType = .str (asciiBytes "DataContinueReq") then
      none
    else
      match dictGet innerFields 10 with
      | some (.bytes statusData) => some (decodeMessage statusData)
      | _ =>
        match dictGet innerFields 12 with
        | some (.bytes statusData) => some (decodeMessage statusData)
        | _ => some innerFields
  | _ => some outerFields

/-- `has_key_fields` (line 471): the payload is a genuine status only when it
is non-empty and carries at least one of the field numbers 1, 2, 8, 17. -/
def hasKeyFields (fields : Dict) : Bool :=
  !fields.isEmpty &&
    ((dictGet fields 1).isSome || (dictGet fields 2).isSome ||
      (dictGet fields 8).isSome || (dictGet fields 17).isSome)

/-- The `ChargerStatus(...)` construction of lines 483–501. The four identity
strings (extracted by the heuristics of lines 402–445, which no verified
claim depends on) are threaded through as parameters. -/
def buildStatus (fields : Dict) (deviceId model manufacturer firmware : List ℕ) :
    ChargerStatus where
  conn_status := getInt fields 17
  voltage := getFloat fields 1
  voltage2 := 0
  voltage3 := 0
  current := getFloat fields 2
  current2 := 0
  current3 := 0
  power := 0
  temperature_station := getFloat fields 8
  temperature_internal := getFloat fields 7
  session_energy := getFloat fields 4
  timestamp := getInt fields 18
  cp_voltage_raw := getFloat fields 9
  device_id := deviceId
  model := model
  manufacturer := manufacturer
  firmware := firmware

/-- The power fix-up of lines 503–504: overwrite the constructed `power = 0`
with `voltage * current` exactly when both are strictly positive. -/
def finalizePower (s : ChargerStatus) : ChargerStatus :=
  if 0 < s.voltage ∧ 0 < s.current then { s with power := s.voltage * s.current }
  else s

/-- Back half of `_get_status_once` (lines 447–506), from the decoded outer
message to the optional status: payload selection, the `has_key_fields`
genuineness test (line 471–473), status construction and power fix-up. -/
def getStatusOnceFrom (outerFields : Dict)
    (deviceId model manufacturer firmware : List ℕ) : Option ChargerStatus :=
  match statusPayload outerFields with
  | none => none
  | some fields =>
    if hasKeyFields fields then
      some (finalizePower (buildStatus fields deviceId model manufacturer firmware))
    else none

/-- Session state of `DuosidaCharger` (lines 300–309): the sequence counter
starts at 2, no cached status, not connected. The socket handle itself is
abstracted to the `connected` flag. -/
structure SessionState where
  deviceId : List ℕ := []
  sequence : ℕ := 2
  connected : Bool := false
  lastGoodStatus : Option ChargerStatus := none
deriving DecidableEq, Repr

/-- `DuosidaCharger.__init__` (lines 300–309). -/
def initSession (deviceId : List ℕ) : SessionState :=
  { deviceId := deviceId }

/-- First handshake frame, `unhexlify("a2030408001000a20603494f53a80600")`
(line 339). -/
def handshakeFrame1 : List ℕ :=
  [0xa2, 0x03, 0x04, 0x08, 0x00, 0x10, 0x00, 0xa2, 0x06, 0x03, 0x49, 0x4f,
   0x53, 0xa8, 0x06, 0x00]

/-- Second handshake frame (lines 348–350): the concatenation of the three
`unhexlify` literals `1a0a089ee6da910d10001800`,
`a2061330333130313037313132313232333630333734` (a field-100 header `a2 06 13`
followed by the ASCII bytes of the hardcoded id `"0310107112122360374"`), and
`a8069e818040`. -/
def handshakeFrame2 : List ℕ :=
  [0x1a, 0x0a, 0x08, 0x9e, 0xe6, 0xda, 0x91, 0x0d, 0x10, 0x00, 0x18, 0x00] ++
  ([0xa2, 0x06, 0x13] ++ asciiBytes "0310107112122360374") ++
  [0xa8, 0x06, 0x9e, 0x81, 0x80, 0x40]

/-- The second frame `_send_handshake` sends for a given session (lines
348–351): the byte literal `handshakeFrame2`. The construction in the source
never reads `self.device_id`, so the result is independent of the state. -/
def sendHandshakeFrame2 (st : SessionState) : List ℕ :=
  let _ := st
  handshakeFrame2

/-- Modelled from the spec: section 6 describes the second handshake frame
as the prefix `1a0a089ee6da910d10001800`, then "the device id rendered as
ASCII-hex bytes", then the suffix `a8069e818040`. -/
def specHandshakeFrame2 (deviceId : List ℕ) : List ℕ :=
  [0x1a, 0x0a, 0x08, 0x9e, 0xe6, 0xda, 0x91, 0x0d, 0x10, 0x00, 0x18, 0x00] ++
  deviceId ++
  [0xa8, 0x06, 0x9e, 0x81, 0x80, 0x40]

/-- `connect` / `_send_handshake` (lines 311–353), with the transport outcome
abstracted to `ok`: on success the handshake completes and `sequence += 1`
(line 353) runs; on any socket failure `connect` returns `False` before the
increment is reached. -/
def connectOp (st : SessionState) (ok : Bool) : Bool × SessionState :=
  if ok then (true, { st with connected := true, sequence := st.sequence + 1 })
  else (false, st)

/-- `disconnect` (lines 330–335). -/
def disconnectOp (st : SessionState) : SessionState :=
  { st with connected := false }

/-- `set_max_current` (lines 512–535); `sendOk` abstracts whether
`_send_raw` succeeds. Returns the boolean result, the new state, and the list
of frames written to the socket. -/
def setMaxCurrent (st : SessionState) (amps : ℤ) (sendOk : Bool) :
    Bool × SessionState × List (List ℕ) :=
  if ¬(6 ≤ amps ∧ amps ≤ 32) then (false, st, [])
  else
    let commandData := encodeString 1 (asciiBytes "VendorMaxWorkCurrent") ++
      encodeString 2 (asciiBytes (toString amps))
    let msg := encodeEmbeddedMessage 10 commandData ++
      encodeString 100 st.deviceId ++ encodeVarintField 101 st.sequence
    if sendOk then (true, { st with sequence := st.sequence + 1 }, [msg])
    else (false, st, [])

/-- `set_config` (lines 537–566). -/
def setConfig (st : SessionState) (key value : List ℕ) (sendOk : Bool) :
    Bool × SessionState × List (List ℕ) :=
  let commandData := encodeString 1 key ++ encodeString 2 value
  let msg := encodeEmbeddedMessage 10 commandData ++
    encodeString 100 st.deviceId ++ encodeVarintField 101 st.sequence
  if sendOk then (true, { st with sequence := st.sequence + 1 }, [msg])
  else (false, st, [])

/-- `set_connection_timeout` (lines 568–581). -/
def setConnectionTimeout (st : SessionState) (seconds : ℤ) (sendOk : Bool) :
    Bool × SessionState × List (List ℕ) :=
  if ¬(30 ≤ seconds ∧ seconds ≤ 900) then (false, st, [])
  else setConfig st (asciiBytes "ConnectionTimeOut") (asciiBytes (toString seconds)) sendOk

/-- `set_max_temperature` (lines 583–596). -/
def setMaxTemperature (st : SessionState) (celsius : ℤ) (sendOk : Bool) :
    Bool × SessionState × List (List ℕ) :=
  if ¬(85 ≤ celsius ∧ celsius ≤ 95) then (false, st, [])
  else setConfig st (asciiBytes "VendorMaxWorkTemperature") (asciiBytes (toString celsius)) sendOk

/-- `set_max_voltage` (lines 598–611). -/
def setMaxVoltage (st : SessionState) (voltage : ℤ) (sendOk : Bool) :
    Bool × SessionState × List (List ℕ) :=
  if ¬(265 ≤ voltage ∧ voltage ≤ 290) then (false, st, [])
  else setConfig st (asciiBytes "VendorMaxWorkVoltage") (asciiBytes (toString voltage)) sendOk

/-- `set_min_voltage` (lines 613–626). -/
def setMinVoltage (st : SessionState) (voltage : ℤ) (sendOk : Bool) :
    Bool × SessionState × List (List ℕ) :=
  if ¬(70 ≤ voltage ∧ voltage ≤ 110) then (false, st, [])
  else setConfig st (asciiBytes "VendorMinWorkVoltage") (asciiBytes (toString voltage)) sendOk

/-- `set_direct_work_mode` (lines 628–640): no range validation. -/
def setDirectWorkMode (st : SessionState) (enabled : Bool) (sendOk : Bool) :
    Bool × SessionState × List (List ℕ) :=
  setConfig st (asciiBytes "VendorDirectWorkMode")
    (asciiBytes (if enabled then "1" else "0")) sendOk

/-- `set_led_brightness` (lines 642–655). -/
def setLedBrightness (st : SessionState) (level : ℤ) (sendOk : Bool) :
    Bool × SessionState × List (List ℕ) :=
  if ¬(level = 0 ∨ level = 1 ∨ level = 3) then (false, st, [])
  else setConfig st (asciiBytes "VendorLEDStrength") (asciiBytes (toString level)) sendOk

/-- `set_stop_on_disconnect` (lines 657–670): no range validation. -/
def setStopOnDisconnect (st : SessionState) (enabled : Bool) (sendOk : Bool) :
    Bool × SessionState × List (List ℕ) :=
  setConfig st (asciiBytes "StopTransactionOnEVSideDisconnect")
    (asciiBytes (if enabled then "1" else "0")) sendOk

/-- `start_charging` (lines 672–702). -/
def startCharging (st : SessionState) (sendOk : Bool) :
    Bool × SessionState × List (List ℕ) :=
  let innerData := encodeString 1 (asciiBytes "XC_Remote_Tag")
  let commandData := encodeVarintField 1 1 ++ encodeEmbeddedMessage 2 innerData
  let msg := encodeEmbeddedMessage 34 commandData ++
    encodeString 100 st.deviceId ++ encodeVarintField 101 st.sequence
  if sendOk then (true, { st with sequence := st.sequence + 1 }, [msg])
  else (false, st, [])

/-- `stop_charging` (lines 704–736); `sessionId` is the Python argument
after the timestamp default of line 717 has been resolved. -/
def stopCharging (st : SessionState) (sessionId : ℕ) (sendOk : Bool) :
    Bool × SessionState × List (List ℕ) :=
  let commandData := encodeVarintField 1 sessionId
  let msg := encodeEmbeddedMessage 36 commandData ++
    encodeString 100 st.deviceId ++ encodeVarintField 101 st.sequence
  if sendOk then (true, { st with sequence := st.sequence + 1 }, [msg])
  else (false, st, [])

/-- One public operation of `DuosidaCharger`, with its transport outcome.
`pollStatus` covers `get_status`/`monitor`, which never touch `sequence` and
at most overwrite the status cache. -/
inductive SessionOp where
  | connect (ok : Bool)
  | maxCurrent (amps : ℤ) (ok : Bool)
  | config (key value : List ℕ) (ok : Bool)
  | connTimeout (seconds : ℤ) (ok : Bool)
  | maxTemperature (celsius : ℤ) (ok : Bool)
  | maxVoltage (voltage : ℤ) (ok : Bool)
  | minVoltage (voltage : ℤ) (ok : Bool)
  | directWorkMode (enabled : Bool) (ok : Bool)
  | ledBrightness (level : ℤ) (ok : Bool)
  | stopOnDisconnect (enabled : Bool) (ok : Bool)
  | startCharge (ok : Bool)
  | stopCharge (sessionId : ℕ) (ok : Bool)
  | pollStatus (newCache : Option ChargerStatus)
  | disconnect

/-- Effect of one operation on the session state. -/
def applyOp (st : SessionState) (op : SessionOp) : SessionState :=
  match op with
  | .connect ok => (connectOp st ok).2
  | .maxCurrent amps ok => (setMaxCurrent st amps ok).2.1
  | .config key value ok => (setConfig st key value ok).2.1
  | .connTimeout seconds ok => (setConnectionTimeout st seconds ok).2.1
  | .maxTemperature celsius ok => (setMaxTemperature st celsius ok).2.1
  | .maxVoltage voltage ok => (setMaxVoltage st voltage ok).2.1
  | .minVoltage voltage ok => (setMinVoltage st voltage ok).2.1
  | .directWorkMode enabled ok => (setDirectWorkMode st enabled ok).2.1
  | .ledBrightness level ok => (setLedBrightness st level ok).2.1
  | .stopOnDisconnect enabled ok => (setStopOnDisconnect st enabled ok).2.1
  | .startCharge ok => (startCharging st ok).2.1
  | .stopCharge sessionId ok => (stopCharging st sessionId ok).2.1
  | .pollStatus newCache => { st with lastGoodStatus := newCache }
  | .disconnect => disconnectOp st

/-- A whole sequence of operations applied in order. -/
def applyOps (st : SessionState) (ops : List SessionOp) : SessionState :=
  match ops with
  | [] => st
  | op :: t => applyOps (applyOp st op) t

/-- Outcome of one `_get_status_once()` attempt as observed by `get_status`:
either a raised error or an optional status. -/
abbrev AttemptOutcome := Except Unit (Option ChargerStatus)

/-- The `for attempt in range(retries)` loop of `get_status` (lines 375–391),
from loop index `attempt` on, with the outcome of the i-th attempt given by
`attempts i`. Returns `.error ()` when the Python code re-raises, otherwise
the returned optional status together with the cache as left by the call. -/
def getStatusLoop (attempts : ℕ → AttemptOutcome) (retries : ℕ) (useCache : Bool)
    (cache : Option ChargerStatus) (attempt : ℕ) :
    Except Unit (Option ChargerStatus × Option ChargerStatus) :=
  if _h : attempt < retries then
    match attempts attempt with
    | .ok (some status) => .ok (some status, some status)
    | .ok none => getStatusLoop attempts retries useCache cache (attempt + 1)
    | .error _ =>
      if attempt = retries - 1 then
        if useCache && cache.isSome then .ok (cache, cache)
        else .error ()
      else getStatusLoop attempts retries useCache cache (attempt + 1)
  else
    if useCache && cache.isSome then .ok (cache, cache)
    else .ok (none, cache)
termination_by retries - attempt
decreasing_by all_goals omega

/-- `get_status(retries, use_cache)` (lines 375–391) with the session's
cached `_last_good_status` passed in as `cache`. -/
def getStatus (attempts : ℕ → AttemptOutcome) (retries : ℕ) (useCache : Bool)
    (cache : Option ChargerStatus) :
    Except Unit (Option ChargerStatus × Option ChargerStatus) :=
  getStatusLoop attempts retries useCache cache 0

/-! Internal lemmas about the varint codec and the decode loop. -/

theorem decodeVarintGo_le (data : List ℕ) (fuel : ℕ) :
    ∀ offset result shift, offset ≤ (decodeVarintGo data fuel offset result shift).2 := by
  induction fuel with
  | zero => intro offset result shift; simp [decodeVarintGo]
  | succ fuel ih =>
    intro offset result shift
    simp only [decodeVarintGo]
    split
    · split
      · simp
      · exact le_trans (Nat.le_succ _) (ih _ _ _)
    · simp

theorem decodeVarint_le (data : List ℕ) (offset : ℕ) :
    offset ≤ (decodeVarint data offset).2 :=
  decodeVarintGo_le data _ offset 0 0

theorem decodeVarint_lt (data : List ℕ) (offset : ℕ) (h : offset < data.length) :
    offset < (decodeVarint data offset).2 := by
  have hfuel : data.length - offset = (data.length - offset - 1) + 1 := by omega
  rw [decodeVarint, hfuel]
  simp only [decodeVarintGo, dif_pos h]
  split
  · simp
  · exact Nat.lt_of_lt_of_le (Nat.lt_succ_self _) (decodeVarintGo_le data _ _ _ _)

theorem decodeVarintGo_eq_list (data : List ℕ) (fuel : ℕ) :
    ∀ offset result shift, data.length - offset ≤ fuel →
      decodeVarintGo data fuel offset result shift =
        ((decodeVarintList (data.drop offset) result shift).1,
         offset + (decodeVarintList (data.drop offset) result shift).2) := by
  induction fuel with
  | zero =>
    intro offset result shift h
    have hge : data.length ≤ offset := by omega
    simp [decodeVarintGo, List.drop_eq_nil_of_le hge, decodeVarintList]
  | succ fuel ih =>
    intro offset result shift h
    by_cases hlt : offset < data.length
    · rw [List.drop_eq_getElem_cons hlt]
      simp only [decodeVarintGo, dif_pos hlt, decodeVarintList, List.get_eq_getElem]
      split
      · next hb => simp [hb]
      · next hb =>
        rw [ih (offset + 1) _ _ (by omega)]
        dsimp only
        simp only [Prod.mk.injEq, true_and]
        omega
    · have hge : data.length ≤ offset := by omega
      simp [decodeVarintGo, hlt, List.drop_eq_nil_of_le hge, decodeVarintList]

theorem and_127_lt (x : ℕ) : x &&& 127 < 128 :=
  Nat.lt_succ_of_le (Nat.and_le_right)

theorem testBit_127 (i : ℕ) : Nat.testBit 127 i = decide (i < 7) := by
  have : (127 : ℕ) = 2 ^ 7 - 1 := by norm_num
  rw [this, Nat.testBit_two_pow_sub_one]

theorem testBit_128 (i : ℕ) : Nat.testBit 128 i = decide (7 = i) := by
  have : (128 : ℕ) = 2 ^ 7 := by norm_num
  rw [this, Nat.testBit_two_pow]

theorem and_128_eq_zero {x : ℕ} (h : x < 128) : x &&& 128 = 0 := by
  apply Nat.eq_of_testBit_eq
  intro i
  rw [Nat.testBit_and, testBit_128, Nat.zero_testBit]
  by_cases hi : 7 = i
  · subst hi
    have : x < 2 ^ 7 := by norm_num at h ⊢; omega
    simp [Nat.testBit_lt_two_pow this]
  · simp [hi]

theorem or_128_and_128 (x : ℕ) : (x ||| 128) &&& 128 = 128 := by
  apply Nat.eq_of_testBit_eq
  intro i
  rw [Nat.testBit_and, Nat.testBit_or, testBit_128]
  by_cases hi : 7 = i <;> simp [hi]

theorem or_128_and_127 (x : ℕ) : ((x &&& 127) ||| 128) &&& 127 = x &&& 127 := by
  apply Nat.eq_of_testBit_eq
  intro i
  simp only [Nat.testBit_and, Nat.testBit_or, testBit_128, testBit_127]
  by_cases hi : i < 7
  · have h7 : ¬(7 = i) := by omega
    simp [hi, h7]
  · simp [hi]

theorem and_127_eq_self {x : ℕ} (h : x < 128) : x &&& 127 = x := by
  apply Nat.eq_of_testBit_eq
  intro i
  rw [Nat.testBit_and, testBit_127]
  by_cases hi : i < 7
  · simp [hi]
  · have : x < 2 ^ i := by
      calc x < 128 := h
      _ = 2 ^ 7 := by norm_num
      _ ≤ 2 ^ i := Nat.pow_le_pow_right (by norm_num) (by omega)
    simp [hi, Nat.testBit_lt_two_pow this]

theorem or_shift_split (acc v shift : ℕ) :
    acc ||| ((v &&& 127) <<< shift) ||| ((v >>> 7) <<< (shift + 7)) =
      acc ||| (v <<< shift) := by
  apply Nat.eq_of_testBit_eq
  intro i
  rw [Nat.testBit_or, Nat.testBit_or, Nat.testBit_or, Nat.testBit_shiftLeft,
    Nat.testBit_shiftLeft, Nat.testBit_shiftLeft, Nat.testBit_and, testBit_127,
    Nat.testBit_shiftRight]
  by_cases h1 : shift ≤ i
  · by_cases h2 : shift + 7 ≤ i
    · have e1 : ¬(i - shift < 7) := by omega
      have e2 : 7 + (i - (shift + 7)) = i - shift := by omega
      simp [h1, h2, e1, e2, Bool.or_assoc]
    · have e1 : i - shift < 7 := by omega
      simp [h1, h2, e1]
  · have h2 : ¬(shift + 7 ≤ i) := by omega
    simp [h1, h2]

theorem decodeVarintList_encode (v : ℕ) :
    ∀ rest acc shift, decodeVarintList (encodeVarint v ++ rest) acc shift =
      (acc ||| (v <<< shift), (encodeVarint v).length) := by
  induction v using Nat.strong_induction_on with
  | _ v ih =>
    intro rest acc shift
    by_cases hv : 0x7F < v
    · rw [encodeVarint]
      simp only [if_pos hv, List.cons_append, decodeVarintList]
      have hb : ((v &&& 127) ||| 128) &&& 128 = 128 := or_128_and_128 _
      have hb' : ¬(((v &&& 0x7F) ||| 0x80) &&& 0x80 = 0) := by
        show ¬(((v &&& 127) ||| 128) &&& 128 = 0)
        omega
      rw [if_neg hb']
      have hlt : v >>> 7 < v := by
        rw [Nat.shiftRight_eq_div_pow]
        exact Nat.div_lt_self (by omega) (by norm_num)
      rw [ih (v >>> 7) hlt rest _ _]
      rw [or_128_and_127]
      rw [or_shift_split]
      simp
    · rw [encodeVarint]
      simp only [if_neg hv, List.cons_append, decodeVarintList]
      have h127 : v &&& 127 = v := and_127_eq_self (by omega)
      have hb : (v &&& 0x7F) &&& 0x80 = 0 := by
        show (v &&& 127) &&& 128 = 0
        rw [h127]
        exact and_128_eq_zero (by omega)
      rw [if_pos hb]
      show (acc ||| ((v &&& 127) &&& 127) <<< shift, 1) = _
      rw [h127, h127]
      simp

theorem decodeStep_advance (data : List ℕ) (offset : ℕ) (fields : Dict)
    (h : offset < data.length) : offset < (decodeStep data offset fields).2 := by
  have h1 : offset < (decodeVarint data offset).2 := decodeVarint_lt data offset h
  have h2 : (decodeVarint data offset).2 ≤
      (decodeVarint data (decodeVarint data offset).2).2 :=
    decodeVarint_le data _
  simp only [decodeStep]
  split_ifs <;> simp <;> omega

theorem decodeMessageGo_stop (data : List ℕ) (fuel offset : ℕ) (fields : Dict)
    (h : data.length ≤ offset) : decodeMessageGo data fuel offset fields = fields := by
  cases fuel with
  | zero => rfl
  | succ fuel => simp [decodeMessageGo, Nat.not_lt_of_le h]

theorem decodeMessageGo_fuel (data : List ℕ) (fuel : ℕ) :
    ∀ fuel' offset fields, data.length - offset ≤ fuel → data.length - offset ≤ fuel' →
      decodeMessageGo data fuel offset fields = decodeMessageGo data fuel' offset fields := by
  induction fuel with
  | zero =>
    intro fuel' offset fields h h'
    have hge : data.length ≤ offset := by omega
    rw [decodeMessageGo_stop data _ _ _ hge, decodeMessageGo_stop data _ _ _ hge]
  | succ fuel ih =>
    intro fuel' offset fields h h'
    by_cases hlt : offset < data.length
    · have hadv : offset < (decodeStep data offset fields).2 :=
        decodeStep_advance data offset fields hlt
      cases fuel' with
      | zero => omega
      | succ fuel' =>
        simp only [decodeMessageGo, if_pos hlt]
        exact ih fuel' _ _ (by omega) (by omega)
    · have hge : data.length ≤ offset := by omega
      rw [decodeMessageGo_stop data _ _ _ hge, decodeMessageGo_stop data _ _ _ hge]

/-! Claim theorems. -/

/-- C1, counterexample. The claim says a tag with wire type 3 makes decoding
fail with a distinct communication error and that the decoder never silently
continues scanning past the unsupported field. On input `[0x0b, 0x08, 0x2a]`
(field 1 with wire type 3, then field 1 as varint 42) the decoder raises
nothing — it is a total function into field dicts — skips only the tag byte
(`decodeStep` returns the unchanged dict with next offset 1), keeps scanning,
and produces field 1 = 42 from the bytes after the unsupported tag. -/
theorem c1_counterexample :
    decodeStep [0x0b, 0x08, 0x2a] 0 [] = ([], 1) ∧
    decodeMessage [0x0b, 0x08, 0x2a] = [(1, WireValue.vint 42)] :=
  ⟨by decide, by decide⟩

/-- C1, amended: on a tag whose wire type is 3, 4, 6 or 7 the decoder raises
no error and stores no field; it silently continues scanning at the offset
immediately after the tag varint (the `if`/`elif` chain of
`decode_message` has no branch for these wire types, so the iteration is a
no-op on the field dict and consumes only the key). -/
theorem c1_unsupported_wiretype_skips (data : List ℕ) (offset : ℕ) (fields : Dict)
    (hw : (decodeVarint data offset).1 &&& 0x07 = 3 ∨
      (decodeVarint data offset).1 &&& 0x07 = 4 ∨
      (decodeVarint data offset).1 &&& 0x07 = 6 ∨
      (decodeVarint data offset).1 &&& 0x07 = 7) :
    decodeStep data offset fields = (fields, (decodeVarint data offset).2) := by
  simp only [decodeStep]
  rcases hw with hw | hw | hw | hw <;> simp [hw]

/-- C1 witness: the amended theorem applied to the buffer `[0x0b]`, whose
single tag has wire type 3. -/
theorem c1_witness :
    ((decodeVarint [0x0b] 0).1 &&& 0x07 = 3 ∨
      (decodeVarint [0x0b] 0).1 &&& 0x07 = 4 ∨
      (decodeVarint [0x0b] 0).1 &&& 0x07 = 6 ∨
      (decodeVarint [0x0b] 0).1 &&& 0x07 = 7) ∧
    decodeStep [0x0b] 0 [] = ([], (decodeVarint [0x0b] 0).2) :=
  ⟨Or.inl (by decide), c1_unsupported_wiretype_skips [0x0b] 0 [] (Or.inl (by decide))⟩

/-- C5, counterexample. The claim says that when a length-delimited field's
declared length exceeds the remaining buffer, decoding stops cleanly with the
field omitted and no further fields produced from the truncated tail — i.e.
`decode_message [0x0a, 0x05, 0x08, 0x01]` (field 1, wire type 2, declared
length 5 with only 2 bytes left) should give the empty dict. Instead the
decoder keeps scanning the truncated payload bytes `[0x08, 0x01]` and
produces field 1 = 1 from them. -/
theorem c5_counterexample :
    decodeMessage [0x0a, 0x05, 0x08, 0x01] = [(1, WireValue.vint 1)] ∧
    decodeMessage [0x0a, 0x05, 0x08, 0x01] ≠ [] :=
  ⟨by decide, by decide⟩

/-- C5, amended: when a length-delimited field's declared length exceeds the
remaining buffer, no error is raised and the field is not stored from this
tag, but decoding does not stop: it continues scanning at the first byte of
the truncated payload (the offset right after the length varint), and may
produce further fields from that tail. -/
theorem c5_truncated_field_skipped (data : List ℕ) (offset : ℕ) (fields : Dict)
    (hw : (decodeVarint data offset).1 &&& 0x07 = 2)
    (hov : ¬((decodeVarint data (decodeVarint data offset).2).2 +
        (decodeVarint data (decodeVarint data offset).2).1 ≤ data.length)) :
    decodeStep data offset fields =
      (fields, (decodeVarint data (decodeVarint data offset).2).2) := by
  simp only [decodeStep]
  simp [hw, hov]

/-- C5 witness: the amended theorem applied to the buffer `[0x0a, 0x05]`
(field 1, wire type 2, declared length 5, empty remainder). -/
theorem c5_witness :
    (decodeVarint [0x0a, 0x05] 0).1 &&& 0x07 = 2 ∧
    ¬((decodeVarint [0x0a, 0x05] (decodeVarint [0x0a, 0x05] 0).2).2 +
        (decodeVarint [0x0a, 0x05] (decodeVarint [0x0a, 0x05] 0).2).1 ≤
        List.length [0x0a, 0x05]) ∧
    decodeStep [0x0a, 0x05] 0 [] =
      ([], (decodeVarint [0x0a, 0x05] (decodeVarint [0x0a, 0x05] 0).2).2) :=
  ⟨by decide, by decide,
    c5_truncated_field_skipped [0x0a, 0x05] 0 [] (by decide) (by decide)⟩

/-- C4, counterexample. The claim says that for every configured device id
the second handshake frame is the fixed prefix, then the session's device id
as ASCII bytes, then the fixed suffix. For a session configured with device
id "TEST123" the frame actually sent differs from that shape: the source
builds the frame from three byte literals that never mention
`self.device_id`. -/
theorem c4_counterexample :
    sendHandshakeFrame2 (initSession (asciiBytes "TEST123")) ≠
      specHandshakeFrame2 (asciiBytes "TEST123") := by
  decide

/-- C4, amended: the second handshake frame is one fixed byte string,
independent of the configured device id — the spec's prefix and suffix
around a field-100 header `a2 06 13` followed by the ASCII bytes of the
hardcoded id "0310107112122360374". -/
theorem c4_frame2_hardcoded (st : SessionState) :
    sendHandshakeFrame2 st =
      specHandshakeFrame2 ([0xa2, 0x06, 0x13] ++ asciiBytes "0310107112122360374") := by
  show handshakeFrame2 = _
  decide

/-- C6: the varint round-trip holds for every non-negative integer (hence in
particular for 0, 1, 127, 128, 300, 16384 and 2^32 − 1): decoding the
encoding from offset 0 yields the value back together with the encoding's
length as the next offset. -/
theorem c6_varint_roundtrip (v : ℕ) :
    decodeVarint (encodeVarint v) 0 = (v, (encodeVarint v).length) := by
  rw [decodeVarint, decodeVarintGo_eq_list _ _ 0 0 0 (by omega)]
  rw [List.drop_zero]
  have h := decodeVarintList_encode v [] 0 0
  rw [List.append_nil] at h
  rw [h]
  simp

/-- C10: `decode_message` terminates on every input buffer. Every loop
iteration (`decodeStep`) strictly advances the offset when any bytes remain,
so the a-priori fuel `data.length` used by `decodeMessage` is always enough:
the result is independent of the fuel bound once the bound covers the
remaining bytes, making the decode a total function of the buffer. -/
theorem c10_decode_message_total :
    (∀ data offset fields, offset < List.length data →
        offset < (decodeStep data offset fields).2) ∧
    (∀ data fuel fuel' offset fields,
        List.length data - offset ≤ fuel → List.length data - offset ≤ fuel' →
        decodeMessageGo data fuel offset fields = decodeMessageGo data fuel' offset fields) ∧
    (∀ data, decodeMessage data = decodeMessageGo data (List.length data) 0 []) :=
  ⟨fun data offset fields h => decodeStep_advance data offset fields h,
   fun data fuel fuel' offset fields h h' => decodeMessageGo_fuel data fuel fuel' offset fields h h',
   fun _ => rfl⟩

/-- C10 witness: the advancement and fuel-independence parts applied to the
concrete buffer `[0x0b, 0x08, 0x2a]` at offset 0 with fuel bounds 3 and 7. -/
theorem c10_witness :
    (0 < List.length [0x0b, 0x08, 0x2a] ∧
      0 < (decodeStep [0x0b, 0x08, 0x2a] 0 []).2) ∧
    decodeMessageGo [0x0b, 0x08, 0x2a] 3 0 [] = decodeMessageGo [0x0b, 0x08, 0x2a] 7 0 [] :=
  ⟨⟨by decide, c10_decode_message_total.1 [0x0b, 0x08, 0x2a] 0 [] (by decide)⟩,
   c10_decode_message_total.2.1 [0x0b, 0x08, 0x2a] 3 7 0 [] (by decide) (by decide)⟩

/-- Helper: pulling `some` out of the source's "sub-field present as raw
bytes" match. -/
theorem match_bytes_comm (o : Option WireValue) (F : List ℕ → Dict) (G : Dict) :
    (match o with
      | some (.bytes b) => some (F b)
      | _ => some G) =
    some (match o with
      | some (.bytes b) => F b
      | _ => G) := by
  rcases o with _ | v
  · rfl
  · cases v <;> rfl

/-- C2, counterexample. Outer field 16 holds an inner container whose
sub-field 2 is `"DataVendorStatusReq"` (so not `"DataContinueReq"`) and whose
sub-field 10 is absent while sub-field 12 is present as raw bytes decoding to
`{17: 42}` — by the claim the status payload should be that decode (a genuine
status, since field 17 is a key field). The code's dedicated
`"DataVendorStatusReq"` branch never looks at sub-field 12: it selects the
empty payload and the whole decode yields no status. -/
theorem c2_counterexample :
    statusPayload [(16, WireValue.bytes
        ([0x12, 19] ++ asciiBytes "DataVendorStatusReq" ++ [0x62, 3, 0x88, 0x01, 0x2a]))] =
      some [] ∧
    decodeMessage [0x88, 0x01, 0x2a] = [(17, WireValue.vint 42)] ∧
    hasKeyFields (decodeMessage [0x88, 0x01, 0x2a]) = true ∧
    getStatusOnceFrom [(16, WireValue.bytes
        ([0x12, 19] ++ asciiBytes "DataVendorStatusReq" ++ [0x62, 3, 0x88, 0x01, 0x2a]))]
        [] [] [] [] = none :=
  ⟨by decide, by decide, by decide, by decide⟩

/-- C2, amended: when outer field 16 is a raw-bytes inner container, the
classification is: sub-field 2 = `"DataContinueReq"` gives no status
(regardless of the other sub-fields); sub-field 2 = `"DataVendorStatusReq"`
gives the decode of sub-field 10 when it is present as raw bytes and the
empty payload otherwise (never falling back to sub-field 12 or the inner
fields); any other tag gives the decode of sub-field 10 if present as raw
bytes, else the decode of sub-field 12 if present as raw bytes, else the
inner container's own fields. -/
theorem c2_envelope_classification (outerFields : Dict) (innerData : List ℕ)
    (h16 : dictGet outerFields 16 = some (.bytes innerData)) :
    (((dictGet (decodeMessage innerData) 2).getD (.str []) =
          .str (asciiBytes "DataContinueReq")) →
        statusPayload outerFields = none) ∧
    (((dictGet (decodeMessage innerData) 2).getD (.str []) =
          .str (asciiBytes "DataVendorStatusReq")) →
        statusPayload outerFields = some
          (match dictGet (decodeMessage innerData) 10 with
            | some (.bytes b) => decodeMessage b
            | _ => [])) ∧
    ((((dictGet (decodeMessage innerData) 2).getD (.str []) ≠
          .str (asciiBytes "DataContinueReq")) ∧
      ((dictGet (decodeMessage innerData) 2).getD (.str []) ≠
          .str (asciiBytes "DataVendorStatusReq"))) →
        statusPayload outerFields = some
          (match dictGet (decodeMessage innerData) 10 with
            | some (.bytes b) => decodeMessage b
            | _ =>
              match dictGet (decodeMessage innerData) 12 with
              | some (.bytes b) => decodeMessage b
              | _ => decodeMessage innerData)) := by
  refine ⟨fun hm => ?_, fun hm => ?_, fun hm => ?_⟩
  · have hne : (dictGet (decodeMessage innerData) 2).getD (.str []) ≠
        .str (asciiBytes "DataVendorStatusReq") := by
      rw [hm]; decide
    simp only [statusPayload, h16]
    rw [if_neg hne, if_pos hm]
  · simp only [statusPayload, h16]
    rw [if_pos hm]
    exact match_bytes_comm _ _ _
  · simp only [statusPayload, h16]
    rw [if_neg hm.2, if_neg hm.1]
    rcases dictGet (decodeMessage innerData) 10 with _ | v
    · exact match_bytes_comm _ _ _
    · cases v
      case bytes b => rfl
      all_goals exact match_bytes_comm _ _ _

/-- C2 witness: the amended theorem's `"DataContinueReq"` case applied to a
concrete frame whose inner container also carries a sub-field 10. -/
theorem c2_witness :
    dictGet [(16, WireValue.bytes
        ([0x12, 15] ++ asciiBytes "DataContinueReq" ++ [0x50, 0x07]))] 16 =
      some (.bytes ([0x12, 15] ++ asciiBytes "DataContinueReq" ++ [0x50, 0x07])) ∧
    (dictGet (decodeMessage
        ([0x12, 15] ++ asciiBytes "DataContinueReq" ++ [0x50, 0x07])) 2).getD (.str []) =
      .str (asciiBytes "DataContinueReq") ∧
    statusPayload [(16, WireValue.bytes
        ([0x12, 15] ++ asciiBytes "DataContinueReq" ++ [0x50, 0x07]))] = none :=
  ⟨by decide, by decide,
    (c2_envelope_classification
      [(16, WireValue.bytes ([0x12, 15] ++ asciiBytes "DataContinueReq" ++ [0x50, 0x07]))]
      ([0x12, 15] ++ asciiBytes "DataContinueReq" ++ [0x50, 0x07])
      (by decide)).1 (by decide)⟩

/-- Helper for C9: the status built from any payload dict satisfies the power
invariant after the fix-up of lines 503–504. -/
theorem finalizePower_buildStatus (fields : Dict)
    (deviceId model manufacturer firmware : List ℕ) :
    ((0 < (finalizePower (buildStatus fields deviceId model manufacturer firmware)).voltage ∧
      0 < (finalizePower (buildStatus fields deviceId model manufacturer firmware)).current) →
      (finalizePower (buildStatus fields deviceId model manufacturer firmware)).power =
        (finalizePower (buildStatus fields deviceId model manufacturer firmware)).voltage *
          (finalizePower (buildStatus fields deviceId model manufacturer firmware)).current) ∧
    (¬(0 < (finalizePower (buildStatus fields deviceId model manufacturer firmware)).voltage ∧
      0 < (finalizePower (buildStatus fields deviceId model manufacturer firmware)).current) →
      (finalizePower (buildStatus fields deviceId model manufacturer firmware)).power = 0) := by
  by_cases h : 0 < (buildStatus fields deviceId model manufacturer firmware).voltage ∧
      0 < (buildStatus fields deviceId model manufacturer firmware).current
  · unfold finalizePower
    rw [if_pos h]
    exact ⟨fun _ => rfl, fun hn => absurd h hn⟩
  · unfold finalizePower
    rw [if_neg h]
    exact ⟨fun hpos => absurd hpos h, fun _ => rfl⟩

/-- C9: every `ChargerStatus` produced by a successful status decode has
`power = voltage * current` when both voltage and current are strictly
positive, and `power = 0` otherwise (the status is freshly constructed with
`power = 0` and the fix-up is the only write). -/
theorem c9_power_invariant (outerFields : Dict)
    (deviceId model manufacturer firmware : List ℕ) (s : ChargerStatus)
    (h : getStatusOnceFrom outerFields deviceId model manufacturer firmware = some s) :
    ((0 < s.voltage ∧ 0 < s.current) → s.power = s.voltage * s.current) ∧
    (¬(0 < s.voltage ∧ 0 < s.current) → s.power = 0) := by
  rw [getStatusOnceFrom] at h
  rcases hp : statusPayload outerFields with _ | fields
  · rw [hp] at h; exact absurd h (by simp)
  · rw [hp] at h
    dsimp only at h
    by_cases hk : hasKeyFields fields = true
    · rw [if_pos hk] at h
      have hs : finalizePower (buildStatus fields deviceId model manufacturer firmware) = s :=
        Option.some_inj.mp h
      subst hs
      exact finalizePower_buildStatus fields deviceId model manufacturer firmware
    · rw [if_neg hk] at h; exact absurd h (by simp)

/-- C9 witness: a frame without field 16 whose own fields carry
voltage 230 (field 1) and current 16 (field 2) yields a status with
`power = voltage * current = 3680`. -/
theorem c9_witness :
    getStatusOnceFrom [(1, WireValue.f32 230), (2, WireValue.f32 16)] [] [] [] [] =
      some (finalizePower (buildStatus [(1, WireValue.f32 230), (2, WireValue.f32 16)]
        [] [] [] [])) ∧
    0 < (finalizePower (buildStatus [(1, WireValue.f32 230), (2, WireValue.f32 16)]
        [] [] [] [])).voltage ∧
    0 < (finalizePower (buildStatus [(1, WireValue.f32 230), (2, WireValue.f32 16)]
        [] [] [] [])).current ∧
    (finalizePower (buildStatus [(1, WireValue.f32 230), (2, WireValue.f32 16)]
        [] [] [] [])).power = 3680 := by
  have hv : (finalizePower (buildStatus [(1, WireValue.f32 230), (2, WireValue.f32 16)]
      [] [] [] [])).voltage = 230 := by
    simp [finalizePower, buildStatus, getFloat, dictGet]
  have hc : (finalizePower (buildStatus [(1, WireValue.f32 230), (2, WireValue.f32 16)]
      [] [] [] [])).current = 16 := by
    simp [finalizePower, buildStatus, getFloat, dictGet]
  have hmain := (c9_power_invariant [(1, WireValue.f32 230), (2, WireValue.f32 16)]
      [] [] [] [] _ rfl).1
  refine ⟨rfl, ?_, ?_, ?_⟩
  · rw [hv]; norm_num
  · rw [hc]; norm_num
  · rw [hmain ⟨by rw [hv]; norm_num, by rw [hc]; norm_num⟩, hv, hc]
    norm_num

/-- C7: the sequence counter starts at 2; a completed handshake adds exactly
1, every successful command send adds exactly 1, failed or rejected
operations leave it unchanged; no operation ever decreases it (monotone over
arbitrary operation sequences); after `connect()` it is 3 and after one
further command it is 4. -/
theorem c7_sequence_counter :
    (∀ deviceId, (initSession deviceId).sequence = 2) ∧
    (∀ st ok, ((connectOp st ok).2).sequence = st.sequence + (if ok then 1 else 0)) ∧
    (∀ st amps ok, ((setMaxCurrent st amps ok).2.1).sequence =
        st.sequence + (if (6 ≤ amps ∧ amps ≤ 32) ∧ ok then 1 else 0)) ∧
    (∀ st key value ok, ((setConfig st key value ok).2.1).sequence =
        st.sequence + (if ok then 1 else 0)) ∧
    (∀ st ok, ((startCharging st ok).2.1).sequence = st.sequence + (if ok then 1 else 0)) ∧
    (∀ st sessionId ok, ((stopCharging st sessionId ok).2.1).sequence =
        st.sequence + (if ok then 1 else 0)) ∧
    (∀ st op, st.sequence ≤ (applyOp st op).sequence) ∧
    (∀ st ops, st.sequence ≤ (applyOps st ops).sequence) ∧
    (∀ deviceId, ((connectOp (initSession deviceId) true).2).sequence = 3) ∧
    (∀ deviceId,
        ((startCharging (connectOp (initSession deviceId) true).2 true).2.1).sequence = 4) := by
  have hop : ∀ st op, st.sequence ≤ (applyOp st op).sequence := by
    intro st op
    cases op <;>
      simp only [applyOp, connectOp, setMaxCurrent, setConfig, setConnectionTimeout,
        setMaxTemperature, setMaxVoltage, setMinVoltage, setDirectWorkMode,
        setLedBrightness, setStopOnDisconnect, startCharging, stopCharging,
        disconnectOp] <;>
      first
      | exact le_refl _
      | (split_ifs <;> simp)
  have hops : ∀ ops st, st.sequence ≤ (applyOps st ops).sequence := by
    intro ops
    induction ops with
    | nil => intro st; exact le_refl _
    | cons op t ih =>
      intro st
      exact le_trans (hop st op) (ih (applyOp st op))
  refine ⟨fun _ => rfl, ?_, ?_, ?_, ?_, ?_, hop, fun st ops => hops ops st, fun _ => rfl,
    fun _ => rfl⟩
  · intro st ok
    cases ok <;> simp [connectOp]
  · intro st amps ok
    by_cases hr : 6 ≤ amps ∧ amps ≤ 32
    · cases ok <;> simp [setMaxCurrent, hr]
    · cases ok <;> simp [setMaxCurrent, hr]
  · intro st key value ok
    cases ok <;> simp [setConfig]
  · intro st ok
    cases ok <;> simp [startCharging]
  · intro st sessionId ok
    cases ok <;> simp [stopCharging]

/-- C8: every range-validated setter checks its range before any byte is
written: an out-of-range input gives `false` with the state unchanged and no
frame sent, whatever the transport would do; an in-range input with a
working transport sends exactly one frame and returns `true`. -/
theorem c8_setters_validate :
    (∀ st amps ok, ¬(6 ≤ amps ∧ amps ≤ 32) →
        setMaxCurrent st amps ok = (false, st, [])) ∧
    (∀ st seconds ok, ¬(30 ≤ seconds ∧ seconds ≤ 900) →
        setConnectionTimeout st seconds ok = (false, st, [])) ∧
    (∀ st celsius ok, ¬(85 ≤ celsius ∧ celsius ≤ 95) →
        setMaxTemperature st celsius ok = (false, st, [])) ∧
    (∀ st voltage ok, ¬(265 ≤ voltage ∧ voltage ≤ 290) →
        setMaxVoltage st voltage ok = (false, st, [])) ∧
    (∀ st voltage ok, ¬(70 ≤ voltage ∧ voltage ≤ 110) →
        setMinVoltage st voltage ok = (false, st, [])) ∧
    (∀ st level ok, ¬(level = 0 ∨ level = 1 ∨ level = 3) →
        setLedBrightness st level ok = (false, st, [])) ∧
    (∀ st amps, 6 ≤ amps → amps ≤ 32 →
        (setMaxCurrent st amps true).1 = true ∧
        (setMaxCurrent st amps true).2.2.length = 1) ∧
    (∀ st seconds, 30 ≤ seconds → seconds ≤ 900 →
        (setConnectionTimeout st seconds true).1 = true ∧
        (setConnectionTimeout st seconds true).2.2.length = 1) ∧
    (∀ st celsius, 85 ≤ celsius → celsius ≤ 95 →
        (setMaxTemperature st celsius true).1 = true ∧
        (setMaxTemperature st celsius true).2.2.length = 1) ∧
    (∀ st voltage, 265 ≤ voltage → voltage ≤ 290 →
        (setMaxVoltage st voltage true).1 = true ∧
        (setMaxVoltage st voltage true).2.2.length = 1) ∧
    (∀ st voltage, 70 ≤ voltage → voltage ≤ 110 →
        (setMinVoltage st voltage true).1 = true ∧
        (setMinVoltage st voltage true).2.2.length = 1) ∧
    (∀ st level, (level = 0 ∨ level = 1 ∨ level = 3) →
        (setLedBrightness st level true).1 = true ∧
        (setLedBrightness st level true).2.2.length = 1) := by
  refine ⟨?_, ?_, ?_, ?_, ?_, ?_, ?_, ?_, ?_, ?_, ?_, ?_⟩
  · intro st amps ok hr; simp [setMaxCurrent, hr]
  · intro st seconds ok hr; simp [setConnectionTimeout, hr]
  · intro st celsius ok hr; simp [setMaxTemperature, hr]
  · intro st voltage ok hr; simp [setMaxVoltage, hr]
  · intro st voltage ok hr; simp [setMinVoltage, hr]
  · intro st level ok hr; simp [setLedBrightness, hr]
  · intro st amps h1 h2; simp [setMaxCurrent, h1, h2]
  · intro st seconds h1 h2; simp [setConnectionTimeout, setConfig, h1, h2]
  · intro st celsius h1 h2; simp [setMaxTemperature, setConfig, h1, h2]
  · intro st voltage h1 h2; simp [setMaxVoltage, setConfig, h1, h2]
  · intro st voltage h1 h2; simp [setMinVoltage, setConfig, h1, h2]
  · intro st level hr; simp [setLedBrightness, setConfig, hr]

/-- C8 witness: the validation parts of the theorem applied to
`set_max_current(33)` (rejected without sending) and `set_max_current(16)`
(sent as exactly one frame, returning true). -/
theorem c8_witness :
    ¬(6 ≤ (33 : ℤ) ∧ (33 : ℤ) ≤ 32) ∧
    setMaxCurrent (initSession []) 33 true = (false, initSession [], []) ∧
    (setMaxCurrent (initSession []) 16 true).1 = true ∧
    (setMaxCurrent (initSession []) 16 true).2.2.length = 1 :=
  ⟨by decide,
   c8_setters_validate.1 (initSession []) 33 true (by decide),
   (c8_setters_validate.2.2.2.2.2.2.1 (initSession []) 16 (by decide) (by decide)).1,
   (c8_setters_validate.2.2.2.2.2.2.1 (initSession []) 16 (by decide) (by decide)).2⟩

/-! Internal lemmas about the `get_status` retry loop. -/

theorem getStatusLoop_congr (attempts attempts' : ℕ → AttemptOutcome)
    (retries : ℕ) (useCache : Bool) (cache : Option ChargerStatus) (n : ℕ) :
    ∀ a, retries - a ≤ n →
      (∀ i, a ≤ i → i < retries → attempts i = attempts' i) →
      getStatusLoop attempts retries useCache cache a =
        getStatusLoop attempts' retries useCache cache a := by
  induction n with
  | zero =>
    intro a hn h
    have hge : ¬a < retries := by omega
    conv_lhs => rw [getStatusLoop]
    conv_rhs => rw [getStatusLoop]
    simp [hge]
  | succ n ih =>
    intro a hn h
    by_cases hlt : a < retries
    · conv_lhs => rw [getStatusLoop]
      conv_rhs => rw [getStatusLoop]
      simp only [dif_pos hlt]
      rw [← h a (le_refl a) hlt]
      cases hA : attempts a with
      | ok s =>
        cases s with
        | some st => rfl
        | none => exact ih (a + 1) (by omega) (fun i h1 h2 => h i (by omega) h2)
      | error e =>
        by_cases hlast : a = retries - 1
        · simp only [if_pos hlast]
        · simp only [if_neg hlast]
          exact ih (a + 1) (by omega) (fun i h1 h2 => h i (by omega) h2)
    · conv_lhs => rw [getStatusLoop]
      conv_rhs => rw [getStatusLoop]
      simp [hlt]

theorem getStatusLoop_genuine (attempts : ℕ → AttemptOutcome)
    (retries : ℕ) (useCache : Bool) (cache : Option ChargerStatus) (n : ℕ) :
    ∀ a j s, j - a ≤ n → a ≤ j → j < retries → attempts j = .ok (some s) →
      (∀ i, a ≤ i → i < j → attempts i = .ok none ∨ attempts i = .error ()) →
      getStatusLoop attempts retries useCache cache a = .ok (some s, some s) := by
  induction n with
  | zero =>
    intro a j s hn ha hj hok _
    have haj : a = j := by omega
    subst haj
    conv_lhs => rw [getStatusLoop]
    simp [dif_pos hj, hok]
  | succ n ih =>
    intro a j s hn ha hj hok hearlier
    by_cases haj : a = j
    · subst haj
      conv_lhs => rw [getStatusLoop]
      simp [dif_pos hj, hok]
    · have haj' : a < j := by omega
      have halt : a < retries := by omega
      conv_lhs => rw [getStatusLoop]
      simp only [dif_pos halt]
      rcases hearlier a (le_refl a) haj' with hA | hA
      · simp only [hA]
        exact ih (a + 1) j s (by omega) (by omega) hj hok
          (fun i h1 h2 => hearlier i (by omega) h2)
      · simp only [hA]
        have hlast : ¬a = retries - 1 := by omega
        rw [if_neg hlast]
        exact ih (a + 1) j s (by omega) (by omega) hj hok
          (fun i h1 h2 => hearlier i (by omega) h2)

theorem getStatusLoop_lastError (attempts : ℕ → AttemptOutcome)
    (retries : ℕ) (useCache : Bool) (cache : Option ChargerStatus) (n : ℕ) :
    ∀ a, retries - 1 - a ≤ n → a ≤ retries - 1 → 0 < retries →
      attempts (retries - 1) = .error () →
      (∀ i, a ≤ i → i < retries - 1 → attempts i = .ok none ∨ attempts i = .error ()) →
      getStatusLoop attempts retries useCache cache a =
        (if useCache && cache.isSome then .ok (cache, cache) else .error ()) := by
  induction n with
  | zero =>
    intro a hn ha hr herr _
    have haj : a = retries - 1 := by omega
    subst haj
    have hlt : retries - 1 < retries := by omega
    conv_lhs => rw [getStatusLoop]
    simp only [dif_pos hlt, herr]
    simp
  | succ n ih =>
    intro a hn ha hr herr hearlier
    by_cases haj : a = retries - 1
    · subst haj
      have hlt : retries - 1 < retries := by omega
      conv_lhs => rw [getStatusLoop]
      simp only [dif_pos hlt, herr]
      simp
    · have haj' : a < retries - 1 := by omega
      have halt : a < retries := by omega
      conv_lhs => rw [getStatusLoop]
      simp only [dif_pos halt]
      rcases hearlier a (le_refl a) haj' with hA | hA
      · simp only [hA]
        exact ih (a + 1) (by omega) (by omega) hr herr
          (fun i h1 h2 => hearlier i (by omega) h2)
      · simp only [hA]
        rw [if_neg haj]
        exact ih (a + 1) (by omega) (by omega) hr herr
          (fun i h1 h2 => hearlier i (by omega) h2)

theorem getStatusLoop_exhaust (attempts : ℕ → AttemptOutcome)
    (retries : ℕ) (useCache : Bool) (cache : Option ChargerStatus) (n : ℕ) :
    ∀ a, retries - a ≤ n →
      (∀ i, a ≤ i → i < retries → attempts i = .ok none) →
      getStatusLoop attempts retries useCache cache a =
        .ok (if useCache && cache.isSome then cache else none, cache) := by
  induction n with
  | zero =>
    intro a hn _
    have hge : ¬a < retries := by omega
    conv_lhs => rw [getStatusLoop]
    simp only [dif_neg hge]
    by_cases hc : useCache && cache.isSome
    · rcases Bool.and_eq_true_iff.mp hc with ⟨h1, h2⟩
      rcases cache with _ | c
      · simp at h2
      · simp [h1]
    · simp [hc]
  | succ n ih =>
    intro a hn h
    by_cases hlt : a < retries
    · conv_lhs => rw [getStatusLoop]
      simp only [dif_pos hlt, h a (le_refl a) hlt]
      exact ih (a + 1) (by omega) (fun i h1 h2 => h i (by omega) h2)
    · conv_lhs => rw [getStatusLoop]
      simp only [dif_neg hlt]
      by_cases hc : useCache && cache.isSome
      · rcases Bool.and_eq_true_iff.mp hc with ⟨h1, h2⟩
        rcases cache with _ | c
        · simp at h2
        · simp [h1]
      · simp [hc]

/-- C3: `get_status(retries, use_cache)` consumes at most `retries` attempt
outcomes (the result only depends on attempts 0..retries−1); the first
genuine status (preceded only by keepalives and swallowed non-final errors)
is returned immediately and becomes the new cache; when the final attempt
raises and no earlier attempt was genuine, the cached status is returned when
`use_cache` holds and a cache exists, else the error propagates; when every
attempt yields "no status" without raising, the cache is returned when
allowed, else `None` — with the cache left unchanged. -/
theorem c3_get_status_retry_cache (attempts : ℕ → AttemptOutcome) (retries : ℕ)
    (useCache : Bool) (cache : Option ChargerStatus) :
    (∀ attempts', (∀ i, i < retries → attempts i = attempts' i) →
        getStatus attempts retries useCache cache =
          getStatus attempts' retries useCache cache) ∧
    (∀ j s, j < retries → attempts j = .ok (some s) →
        (∀ i, i < j → attempts i = .ok none ∨ attempts i = .error ()) →
        getStatus attempts retries useCache cache = .ok (some s, some s)) ∧
    (0 < retries → attempts (retries - 1) = .error () →
        (∀ i, i < retries - 1 → attempts i = .ok none ∨ attempts i = .error ()) →
        getStatus attempts retries useCache cache =
          (if useCache && cache.isSome then .ok (cache, cache) else .error ())) ∧
    ((∀ i, i < retries → attempts i = .ok none) →
        getStatus attempts retries useCache cache =
          .ok (if useCache && cache.isSome then cache else none, cache)) :=
  ⟨fun attempts' h =>
    getStatusLoop_congr attempts attempts' retries useCache cache retries 0 (by omega)
      (fun i _ h2 => h i h2),
   fun j s hj hok hearlier =>
    getStatusLoop_genuine attempts retries useCache cache j 0 j s (by omega) (by omega)
      hj hok (fun i _ h2 => hearlier i h2),
   fun hr herr hearlier =>
    getStatusLoop_lastError attempts retries useCache cache retries 0 (by omega) (by omega)
      hr herr (fun i _ h2 => hearlier i h2),
   fun h =>
    getStatusLoop_exhaust attempts retries useCache cache retries 0 (by omega)
      (fun i _ h2 => h i h2)⟩

/-- C3 witness: the spec's own example — with retries = 3, the first two
attempts raising and the third yielding a genuine status, `get_status`
returns that status and it becomes the new cache, starting from an empty
cache with `use_cache` enabled. -/
theorem c3_witness :
    (2 : ℕ) < 3 ∧
    getStatus (fun i => if i < 2 then .error () else .ok (some {})) 3 true none =
      .ok (some ({} : ChargerStatus), some ({} : ChargerStatus)) :=
  ⟨by decide,
   (c3_get_status_retry_cache (fun i => if i < 2 then .error () else .ok (some {}))
      3 true none).2.1 2 {} (by decide) (by simp)
      (fun i hi => Or.inr (by simp [hi]))⟩

end Duosida
